import Mathlib

/-!
Verification of the durable.tools query-interpretation and data-access layer.

The definitions below are shallow embeddings of:
  * the free-text query interpreter of
    `src/frontend/components/MachineResults.tsx` (both the `searchParams`
    revision, which has a brand-token rule, and the `finalParams` revision,
    which does not);
  * the affiliate-link resolver `getBestAffiliateLink` and its URL builders
    (`src/unnamed/part_011`);
  * the caching / request-deduplication layer of `src/frontend/lib/api.ts`
    (`getCacheKey`, `fetchMachines` URL construction, `cachedFetch`,
    `clearCache`), the stateful part modelled as a small event semantics.

JavaScript objects are modelled as insertion-ordered association lists
(`List (String × PVal)`), since insertion order is observable downstream
(URL serialization iterates `Object.entries` / `URLSearchParams` in
insertion order).  JS `Map`s keyed by strings are modelled as functions
`String → Option _`.
-/

/-- A JavaScript value occurring in a query-parameter object: a string, a
number (all numbers appearing in the interpreter are integral), or an array
of strings (Next.js may hand `searchParams.q` over as `string[]`). -/
inductive PVal where
  | str (s : String)
  | num (n : Int)
  | strList (l : List String)
deriving DecidableEq, Repr

/-- First binding of `k` in an insertion-ordered object. -/
def lookupP : List (String × PVal) → String → Option PVal
  | [], _ => none
  | (k', v) :: rest, k => if k' = k then some v else lookupP rest k

/-- `pat.isPrefixOf l`-based substring test: JS `String.prototype.includes`. -/
def listContains (pat : List Char) : List Char → Bool
  | [] => pat.isPrefixOf []
  | c :: rest => pat.isPrefixOf (c :: rest) || listContains pat (c :: rest).tail

/-- JS `s.includes(pat)`. -/
def strIncludes (s pat : String) : Bool :=
  listContains pat.toList s.toList

/-- JS `toLowerCase` restricted to the Latin-1 range: ASCII `A`–`Z` and the
accented uppercase letters `À`–`Þ` (except `×`) map down by 32; everything
else is unchanged.  This covers every character the keyword rules can
distinguish. -/
def jsLowerChar (c : Char) : Char :=
  let n := c.toNat
  if 65 ≤ n ∧ n ≤ 90 then Char.ofNat (n + 32)
  else if 192 ≤ n ∧ n ≤ 222 ∧ n ≠ 215 then Char.ofNat (n + 32)
  else c

/-- JS `query.toLowerCase()` (Latin-1 fragment). -/
def jsToLower (s : String) : String :=
  String.mk (s.toList.map jsLowerChar)

/-- JS regex word character `\w` = `[A-Za-z0-9_]` (ASCII, as in a non-`u`
JS regex). -/
def isWordChar (c : Char) : Bool :=
  c.isAlphanum || c = '_'

/-- Scanner for the first match of `/\b(20\d{2})\b/`: at each position try
to match `2`, `0`, two digits, with a word boundary on each side; otherwise
advance one character.  `prev` is the character before the current
position. -/
def findYearGo : Option Char → List Char → Option Int
  | prev, '2' :: '0' :: c :: d :: rest =>
    if (match prev with | none => true | some p => !isWordChar p)
        && c.isDigit && d.isDigit
        && (match rest with | [] => true | e :: _ => !isWordChar e) then
      some (2000 + 10 * ((c.toNat : Int) - 48) + ((d.toNat : Int) - 48))
    else
      findYearGo (some '2') ('0' :: c :: d :: rest)
  | _, x :: rest => findYearGo (some x) rest
  | _, [] => none

/-- JS `q.match(/\b(20\d{2})\b/)`, returning `parseInt` of the capture of
the first match when there is one. -/
def findYear (q : String) : Option Int :=
  findYearGo none q.toList

/-- Rule-1 guard: `queryLower.includes("réparable") ||
queryLower.includes("repairability")`. -/
def ruleRepairable (ql : String) : Bool :=
  strIncludes ql "réparable" || strIncludes ql "repairability"

/-- Rule-2 guard: `"fiable"` / `"reliability"`. -/
def ruleReliable (ql : String) : Bool :=
  strIncludes ql "fiable" || strIncludes ql "reliability"

/-- Rule-3 guard: `"durable"` / `"durability"`. -/
def ruleDurable (ql : String) : Bool :=
  strIncludes ql "durable" || strIncludes ql "durability"

/-- Rule-4 guard: `"excellent"` / `"meilleur"`. -/
def ruleExcellent (ql : String) : Bool :=
  strIncludes ql "excellent" || strIncludes ql "meilleur"

/-- Rule-5 guard: `"bon marché"` / `"économique"`. -/
def ruleBudget (ql : String) : Bool :=
  strIncludes ql "bon marché" || strIncludes ql "économique"

/-- Rule-6 guard: `queryLower.includes("2025") ||
queryLower.includes("2024")` — note: two literal tokens, not the year
regex. -/
def ruleYear (ql : String) : Bool :=
  strIncludes ql "2025" || strIncludes ql "2024"

/-- Brand-rule guard: the six recognized brand tokens. -/
def ruleBrand (ql : String) : Bool :=
  strIncludes ql "samsung" || strIncludes ql "lg" ||
  strIncludes ql "bosch" || strIncludes ql "whirlpool" ||
  strIncludes ql "electrolux" || strIncludes ql "candy"

/-- Loading-type guard: `"hublot"` / `"top"` / `"front"` / `"charge"`. -/
def ruleLoading (ql : String) : Bool :=
  strIncludes ql "hublot" || strIncludes ql "top" ||
  strIncludes ql "front" || strIncludes ql "charge"

/-- Disjunction of the guards of keyword rules 1–5. -/
def matchesRule1to5 (ql : String) : Bool :=
  ruleRepairable ql || ruleReliable ql || ruleDurable ql ||
  ruleExcellent ql || ruleBudget ql

/-- Disjunction of the guards of keyword rules 1–6. -/
def matchesRule1to6 (ql : String) : Bool :=
  matchesRule1to5 ql || ruleYear ql

/-- Keyword chain of the `finalParams` revision
(`MachineResults.tsx:994–1031`): `params` starts as `{limit: 20}` and the
if/else chain fills it in; the branches below list the resulting object in
JS insertion order (an overwritten `limit` keeps its original first
position).  This revision has no brand branch. -/
def keywordParamsC (q : String) : List (String × PVal) :=
  let ql := jsToLower q
  if ruleRepairable ql then
    [("limit", .num 20), ("sort_by", .str "note_reparabilite"),
     ("sort_order", .str "DESC"), ("min_repairability", .num 7)]
  else if ruleReliable ql then
    [("limit", .num 20), ("sort_by", .str "note_fiabilite"),
     ("sort_order", .str "DESC"), ("min_reliability", .num 6)]
  else if ruleDurable ql then
    [("limit", .num 20), ("sort_by", .str "note_id"),
     ("sort_order", .str "DESC")]
  else if ruleExcellent ql then
    [("limit", .num 15), ("min_repairability", .num 8),
     ("min_reliability", .num 7), ("sort_by", .str "note_id"),
     ("sort_order", .str "DESC")]
  else if ruleBudget ql then
    [("limit", .num 15), ("max_repairability", .num 6),
     ("max_reliability", .num 6), ("sort_by", .str "note_id"),
     ("sort_order", .str "DESC")]
  else if ruleYear ql then
    match findYear q with
    | some y =>
      [("limit", .num 20), ("year", .num y),
       ("sort_by", .str "date_calcul"), ("sort_order", .str "DESC")]
    | none =>
      [("limit", .num 20), ("sort_by", .str "date_calcul"),
       ("sort_order", .str "DESC")]
  else if ruleLoading ql then
    [("limit", .num 20), ("q", .str q)]
  else
    [("limit", .num 20), ("q", .str q)]

/-- `const q = typeof urlParams.q === 'string' ? urlParams.q :
Array.isArray(urlParams.q) ? urlParams.q[0] : undefined`. -/
def extractQ (ps : List (String × PVal)) : Option String :=
  match lookupP ps "q" with
  | some (.str s) => some s
  | some (.strList l) => l.head?
  | some (.num _) => none
  | none => none

/-- JS truthiness of the extracted `q` (`undefined` and `""` are falsy). -/
def qTruthy (ps : List (String × PVal)) : Bool :=
  match extractQ ps with
  | some s => !(s == "")
  | none => false

/-- `finalParams` (`MachineResults.tsx:987–1033`): with a truthy free-text
`q` the keyword chain runs on it (all other URL params are dropped);
otherwise `urlParams` is returned verbatim when it has at least one key,
and `null` when it has none. -/
def finalParams (ps : List (String × PVal)) : Option (List (String × PVal)) :=
  match extractQ ps with
  | some s =>
    if s = "" then (if ps.isEmpty then none else some ps)
    else some (keywordParamsC s)
  | none => if ps.isEmpty then none else some ps

/-- `searchMachines` in the `finalParams` revision starts with
`if (!finalParams) return;` — a request is dispatched exactly when
`finalParams` is non-null (`MachineResults.tsx:1036–1048`). -/
def machineResultsDispatches (ps : List (String × PVal)) : Bool :=
  (finalParams ps).isSome

/-- The component body starts with `if (!finalParams) return null;`
(`MachineResults.tsx:1061–1063`): no results panel is rendered when the
interpretation is null. -/
def machineResultsRendersNull (ps : List (String × PVal)) : Bool :=
  (finalParams ps).isNone

/-- Keyword chain of the `searchParams` revision
(`MachineResults.tsx:585–641`), which includes the brand branch between
the year rule and the loading-type rule; each branch lists the object in
JS insertion order. -/
def keywordParamsB (q : String) : List (String × PVal) :=
  let ql := jsToLower q
  if ruleRepairable ql then
    [("sort_by", .str "note_reparabilite"), ("sort_order", .str "DESC"),
     ("min_repairability", .num 7), ("limit", .num 20)]
  else if ruleReliable ql then
    [("sort_by", .str "note_fiabilite"), ("sort_order", .str "DESC"),
     ("min_reliability", .num 6), ("limit", .num 20)]
  else if ruleDurable ql then
    [("sort_by", .str "note_id"), ("sort_order", .str "DESC"),
     ("limit", .num 20)]
  else if ruleExcellent ql then
    [("min_repairability", .num 8), ("min_reliability", .num 7),
     ("sort_by", .str "note_id"), ("sort_order", .str "DESC"),
     ("limit", .num 15)]
  else if ruleBudget ql then
    [("max_repairability", .num 6), ("max_reliability", .num 6),
     ("sort_by", .str "note_id"), ("sort_order", .str "DESC"),
     ("limit", .num 15)]
  else if ruleYear ql then
    match findYear q with
    | some y =>
      [("year", .num y), ("sort_by", .str "date_calcul"),
       ("sort_order", .str "DESC"), ("limit", .num 20)]
    | none =>
      [("sort_by", .str "date_calcul"), ("sort_order", .str "DESC"),
       ("limit", .num 20)]
  else if ruleBrand ql then
    [("brand", .str q), ("limit", .num 20)]
  else if ruleLoading ql then
    [("q", .str q), ("limit", .num 20)]
  else
    [("q", .str q), ("limit", .num 20)]

/-- `searchParams` of the `searchParams` revision: `if (!query) return
null;` then the keyword chain. -/
def searchParamsB (query : String) : Option (List (String × PVal)) :=
  if query = "" then none else some (keywordParamsB query)

/-- Output of the year branch of the `searchParams` revision, as a
function of the regex result: `params.year` is set only when
`/\b(20\d{2})\b/` matched. -/
def yearParamsB : Option Int → List (String × PVal)
  | some y =>
    [("year", .num y), ("sort_by", .str "date_calcul"),
     ("sort_order", .str "DESC"), ("limit", .num 20)]
  | none =>
    [("sort_by", .str "date_calcul"), ("sort_order", .str "DESC"),
     ("limit", .num 20)]

/-- Output of the year branch of the `finalParams` revision, as a
function of the regex result. -/
def yearParamsC : Option Int → List (String × PVal)
  | some y =>
    [("limit", .num 20), ("year", .num y),
     ("sort_by", .str "date_calcul"), ("sort_order", .str "DESC")]
  | none =>
    [("limit", .num 20), ("sort_by", .str "date_calcul"),
     ("sort_order", .str "DESC")]

/-! ## Affiliate link resolver (`src/unnamed/part_011`) -/

/-- The `AmazonLocale` union type of `affiliate.ts` / `part_011`. -/
inductive AmazonLocale where
  | fr | com | couk | de | it | es | ca | comau
deriving DecidableEq, Repr

/-- `MARKETPLACE_HOST_BY_LOCALE`.  The JS `|| fr` fallback is unreachable
because the record is total over the union type. -/
def marketplaceHost : AmazonLocale → String
  | .fr => "www.amazon.fr"
  | .com => "www.amazon.com"
  | .couk => "www.amazon.co.uk"
  | .de => "www.amazon.de"
  | .it => "www.amazon.it"
  | .es => "www.amazon.es"
  | .ca => "www.amazon.ca"
  | .comau => "www.amazon.com.au"

/-- UTF-8 bytes of a character (as `Nat`s below 256). -/
def utf8Bytes (c : Char) : List Nat :=
  let n := c.toNat
  if n < 128 then [n]
  else if n < 2048 then [192 + n / 64, 128 + n % 64]
  else if n < 65536 then
    [224 + n / 4096, 128 + (n / 64) % 64, 128 + n % 64]
  else
    [240 + n / 262144, 128 + (n / 4096) % 64, 128 + (n / 64) % 64,
     128 + n % 64]

/-- Uppercase hexadecimal digit. -/
def hexChar (n : Nat) : Char :=
  if n < 10 then Char.ofNat (48 + n) else Char.ofNat (55 + n)

/-- `%HH` percent-encoding of one byte, uppercase hex. -/
def percentByte (b : Nat) : String :=
  "%" ++ String.singleton (hexChar (b / 16)) ++ String.singleton (hexChar (b % 16))

/-- Characters `encodeURIComponent` leaves intact:
`A–Z a–z 0–9 - _ . ! ~ * ' ( )`. -/
def isUnreservedURI (c : Char) : Bool :=
  c.isAlphanum || c = '-' || c = '_' || c = '.' || c = '!' ||
  c = '~' || c = '*' || c.toNat == 39 || c = '(' || c = ')'

/-- JS `encodeURIComponent`: unreserved characters kept, all others
percent-encoded byte-wise over their UTF-8 encoding. -/
def encodeURIComponent (s : String) : String :=
  s.toList.foldl
    (fun acc c =>
      if isUnreservedURI c then acc ++ String.singleton c
      else acc ++ String.join ((utf8Bytes c).map percentByte))
    ""

/-- JS `String.prototype.trim`: strip whitespace from both ends. -/
def jsTrim (s : String) : String :=
  String.mk (((s.toList.dropWhile Char.isWhitespace).reverse.dropWhile
    Char.isWhitespace).reverse)

/-- Truthiness of an optional JS string (`undefined`/`null`/`""` falsy). -/
def jsTruthyS : Option String → Bool
  | none => false
  | some s => !(s == "")

/-- `buildAmazonAffiliateProductUrl` (`part_011:41–53`):
`` `https://${host}/dp/${asin}?tag=${tag}` ``. -/
def buildAmazonAffiliateProductUrl (asin tag : String) (locale : AmazonLocale) : String :=
  "https://" ++ marketplaceHost locale ++ "/dp/" ++ asin ++ "?tag=" ++ tag

/-- `buildAmazonAffiliateSearchUrl` (`part_011:24–39`): keywords are
`` `${brand} ${model || ""}`.trim() `` passed through `encodeURIComponent`,
producing `` `https://${host}/s?k=${encodedQuery}&tag=${tag}` ``. -/
def buildAmazonAffiliateSearchUrl (brand : String) (model : Option String)
    (tag : String) (locale : AmazonLocale) : String :=
  let searchQuery := jsTrim (brand ++ " " ++ model.getD "")
  "https://" ++ marketplaceHost locale ++ "/s?k=" ++
    encodeURIComponent searchQuery ++ "&tag=" ++ tag

/-- Result record of `getBestAffiliateLink`: `{url, type, isDirect}` with
`type` one of the strings `"product"` / `"search"`. -/
structure AffiliateLink where
  url : String
  linkType : String
  isDirect : Bool
deriving DecidableEq, Repr

/-- `getBestAffiliateLink` (`part_011:54–93`): direct Amazon product URL
first, then ASIN-built product URL, then search fallback. -/
def getBestAffiliateLink (brand : String) (model asin amazonProductUrl : Option String)
    (tag : String) (locale : AmazonLocale) : AffiliateLink :=
  if jsTruthyS amazonProductUrl then
    { url := amazonProductUrl.getD "", linkType := "product", isDirect := true }
  else if jsTruthyS asin then
    { url := buildAmazonAffiliateProductUrl (asin.getD "") tag locale,
      linkType := "product", isDirect := true }
  else
    { url := buildAmazonAffiliateSearchUrl brand model tag locale,
      linkType := "search", isDirect := false }

/-! ## Cache keys and URL construction (`src/frontend/lib/api.ts`) -/

/-- JS `String(v)` on a parameter value. -/
def pvalToString : PVal → String
  | .str s => s
  | .num n => toString n
  | .strList l => String.intercalate "," l

/-- Code-unit lexicographic `<` on strings (the order of JS default
`Array.prototype.sort`). -/
def charListLt : List Char → List Char → Bool
  | [], [] => false
  | [], _ :: _ => true
  | _ :: _, [] => false
  | a :: as, b :: bs =>
    if a.toNat < b.toNat then true
    else if b.toNat < a.toNat then false
    else charListLt as bs

/-- Insert a key into a sorted key list. -/
def insertKey (x : String) : List String → List String
  | [] => [x]
  | y :: ys => if charListLt x.toList y.toList then x :: y :: ys else y :: insertKey x ys

/-- `Object.keys(params).sort()`. -/
def sortKeys (l : List String) : List String :=
  l.foldr insertKey []

/-- `getCacheKey` (`api.ts:31–37`): endpoint plus `k=${params[k]}` pairs
joined with `&`, keys sorted lexicographically.  Defined in the source but
never called. -/
def getCacheKey (endpoint : String) (ps : List (String × PVal)) : String :=
  let sortedParams :=
    String.intercalate "&"
      ((sortKeys (ps.map Prod.fst)).map
        (fun k => k ++ "=" ++ pvalToString ((lookupP ps k).getD (.str ""))))
  endpoint ++ "?" ++ sortedParams

/-- Characters `URLSearchParams` serialization leaves intact
(`application/x-www-form-urlencoded`): alphanumerics and `* - . _`. -/
def isFormUnreserved (c : Char) : Bool :=
  c.isAlphanum || c = '*' || c = '-' || c = '.' || c = '_'

/-- `application/x-www-form-urlencoded` encoding of one value: space
becomes `+`, unreserved characters stay, the rest is percent-encoded. -/
def formEncode (s : String) : String :=
  s.toList.foldl
    (fun acc c =>
      if c = ' ' then acc ++ "+"
      else if isFormUnreserved c then acc ++ String.singleton c
      else acc ++ String.join ((utf8Bytes c).map percentByte))
    ""

/-- Serialization of `URLSearchParams` in insertion order. -/
def urlSearchParamsSerialize (ps : List (String × String)) : String :=
  String.intercalate "&" (ps.map (fun p => formEncode p.1 ++ "=" ++ formEncode p.2))

/-- The URL string `fetchMachines` builds (`api.ts:97–101`): for each entry
with `v != null` (in `Object.entries` insertion order) it runs
`url.searchParams.set(k, String(v))`, and `cachedFetch` then uses
`url.toString()` itself as the cache key.  `origin` abbreviates the
protocol-plus-host prefix `URL.toString()` prepends. -/
def fetchMachinesUrl (origin : String) (ps : List (String × Option PVal)) : String :=
  let entries := ps.filterMap (fun p => p.2.map (fun v => (p.1, pvalToString v)))
  if entries.isEmpty then origin ++ "/v1/machines"
  else origin ++ "/v1/machines?" ++ urlSearchParamsSerialize entries

/-! ## `cachedFetch` / `clearCache` state model (`api.ts:24–80, 143–146`)

The module-level state of `api.ts` consists of `cache` (key → response +
timestamp) and `pendingRequests` (key → in-flight promise).  We model both
as functions from keys, add the multiset of network calls currently in
flight per key (`outstanding`, as a list of promise identifiers), a fresh
promise-identifier counter, the current time, and a counter of all network
calls ever issued.  The host is single-threaded and event-driven: each
event below corresponds to one synchronous slice of the JS code. -/

/-- Response payload; opaque to the caching layer, modelled as `Nat`. -/
abbrev RespData := Nat

/-- Module-level state of `api.ts`. -/
structure ClientState where
  cache : String → Option (RespData × Nat)
  pending : String → Option Nat
  outstanding : String → List Nat
  nextId : Nat
  now : Nat
  calls : Nat

/-- State at module load: both maps empty, nothing in flight. -/
def initState : ClientState :=
  { cache := fun _ => none, pending := fun _ => none,
    outstanding := fun _ => [], nextId := 0, now := 0, calls := 0 }

/-- `CACHE_DURATION = 5 * 60 * 1000` (`api.ts:26`). -/
def CACHE_DURATION : Nat := 5 * 60 * 1000

/-- The cache-hit path of `cachedFetch` (`api.ts:43–45`): the stored data
is returned iff an entry exists and `Date.now() - cached.timestamp <
CACHE_DURATION`. -/
def serveFresh (s : ClientState) (k : String) : Option RespData :=
  match s.cache k with
  | some (d, ts) => if s.now - ts < CACHE_DURATION then some d else none
  | none => none

/-- Whether the cache holds an entry for `k` that is fresh by policy. -/
def freshAt (s : ClientState) (k : String) : Bool :=
  match s.cache k with
  | some (_, ts) => decide (s.now - ts < CACHE_DURATION)
  | none => false

/-- Cache miss continuation of `cachedFetch` (`api.ts:48–79`): an in-flight
promise for the key is returned as-is; otherwise a new fetch is issued and
recorded in `pendingRequests`. -/
def requestMiss (s : ClientState) (k : String) : ClientState :=
  match s.pending k with
  | some _ => s
  | none =>
    { s with
      pending := fun k2 => if k2 = k then some s.nextId else s.pending k2,
      outstanding := fun k2 => if k2 = k then s.nextId :: s.outstanding k2 else s.outstanding k2,
      nextId := s.nextId + 1,
      calls := s.calls + 1 }

/-- One synchronous invocation of `cachedFetch` for key `k`. -/
def requestStep (s : ClientState) (k : String) : ClientState :=
  match serveFresh s k with
  | some _ => s
  | none => requestMiss s k

/-- How a fetch settles: HTTP success with a JSON body, non-success status
(`if (!res.ok) throw new Error(...)`), or a transport error. -/
inductive FetchOutcome where
  | success (d : RespData)
  | httpFail (status : Nat)
  | netFail (msg : String)
deriving DecidableEq, Repr

/-- Whether the outcome takes the rejection path. -/
def FetchOutcome.isFail : FetchOutcome → Bool
  | .success _ => false
  | _ => true

/-- Settlement of the fetch with promise id `fid` for key `k`
(`api.ts:62–77`): on success the handler stores the entry in `cache`
unconditionally and deletes the `pendingRequests` entry for the key; on a
non-ok status or a network error the `catch` handler deletes the
`pendingRequests` entry and rethrows, leaving the cache untouched.
A promise that is not outstanding cannot settle (no-op). -/
def settleFull (s : ClientState) (fid : Nat) (k : String) (o : FetchOutcome) :
    ClientState × Except String RespData :=
  if fid ∈ s.outstanding k then
    match o with
    | .success d =>
      ({ s with
          cache := fun k2 => if k2 = k then some (d, s.now) else s.cache k2,
          pending := fun k2 => if k2 = k then none else s.pending k2,
          outstanding := fun k2 => if k2 = k then (s.outstanding k2).erase fid else s.outstanding k2 },
       Except.ok d)
    | .httpFail status =>
      ({ s with
          pending := fun k2 => if k2 = k then none else s.pending k2,
          outstanding := fun k2 => if k2 = k then (s.outstanding k2).erase fid else s.outstanding k2 },
       Except.error ("API error: " ++ toString status))
    | .netFail msg =>
      ({ s with
          pending := fun k2 => if k2 = k then none else s.pending k2,
          outstanding := fun k2 => if k2 = k then (s.outstanding k2).erase fid else s.outstanding k2 },
       Except.error msg)
  else (s, Except.error "not outstanding")

/-- `clearCache` (`api.ts:143–146`): `cache.clear(); pendingRequests.clear()`.
Fetches already on the wire keep running. -/
def clearStep (s : ClientState) : ClientState :=
  { s with cache := fun _ => none, pending := fun _ => none }

/-- Events of the single-threaded host. -/
inductive Event where
  | request (k : String)
  | settleF (fid : Nat) (k : String) (o : FetchOutcome)
  | clear
  | tick (dt : Nat)
deriving DecidableEq, Repr

/-- One event step. -/
def stepE (s : ClientState) : Event → ClientState
  | .request k => requestStep s k
  | .settleF fid k o => (settleFull s fid k o).1
  | .clear => clearStep s
  | .tick dt => { s with now := s.now + dt }

/-- Run a list of events from a state. -/
def run (s : ClientState) (es : List Event) : ClientState :=
  es.foldl stepE s

/-- Whether a trace never invokes `clearCache`. -/
def noClear (es : List Event) : Bool :=
  es.all (fun e => !(e == Event.clear))

/-- Deduplication invariant: `pendingRequests` tracks exactly the fetches
in flight — no entry means no outstanding fetch for that key, an entry
means exactly the one fetch it points to. -/
def DedupInv (s : ClientState) : Prop :=
  ∀ k, (s.pending k = none → s.outstanding k = []) ∧
    (∀ fid, s.pending k = some fid → s.outstanding k = [fid])

lemma dedupInv_init : DedupInv initState := by
  intro k
  exact ⟨fun _ => rfl, fun fid h => by simp [initState] at h⟩

lemma dedupInv_requestStep (s : ClientState) (k : String) (h : DedupInv s) :
    DedupInv (requestStep s k) := by
  unfold requestStep
  split
  · exact h
  · unfold requestMiss
    split
    · exact h
    · next hp =>
      intro k2
      by_cases hk : k2 = k
      · subst hk
        refine ⟨fun hpend => ?_, fun fid hfid => ?_⟩
        · simp at hpend
        · simp at hfid
          subst hfid
          have h0 := (h k2).1 hp
          simp [h0]
      · refine ⟨fun hpend => ?_, fun fid hfid => ?_⟩
        · simp only [if_neg hk] at hpend ⊢
          exact (h k2).1 hpend
        · simp only [if_neg hk] at hfid ⊢
          exact (h k2).2 fid hfid

lemma dedupInv_settleFull (s : ClientState) (fid : Nat) (k : String)
    (o : FetchOutcome) (h : DedupInv s) : DedupInv (settleFull s fid k o).1 := by
  unfold settleFull
  by_cases hin : fid ∈ s.outstanding k
  · have hout : s.outstanding k = [fid] := by
      cases hp : s.pending k with
      | none =>
        have h0 := (h k).1 hp
        rw [h0] at hin
        simp at hin
      | some fid' =>
        have h1 := (h k).2 fid' hp
        rw [h1] at hin
        simp at hin
        subst hin
        exact h1
    rw [if_pos hin]
    cases o with
    | success d =>
      intro k2
      by_cases hk : k2 = k
      · subst hk
        refine ⟨fun _ => ?_, fun fid2 hfid2 => ?_⟩
        · simp [hout]
        · simp at hfid2
      · refine ⟨fun hpend => ?_, fun fid2 hfid2 => ?_⟩
        · simp only [if_neg hk] at hpend ⊢
          exact (h k2).1 hpend
        · simp only [if_neg hk] at hfid2 ⊢
          exact (h k2).2 fid2 hfid2
    | httpFail status =>
      intro k2
      by_cases hk : k2 = k
      · subst hk
        refine ⟨fun _ => ?_, fun fid2 hfid2 => ?_⟩
        · simp [hout]
        · simp at hfid2
      · refine ⟨fun hpend => ?_, fun fid2 hfid2 => ?_⟩
        · simp only [if_neg hk] at hpend ⊢
          exact (h k2).1 hpend
        · simp only [if_neg hk] at hfid2 ⊢
          exact (h k2).2 fid2 hfid2
    | netFail msg =>
      intro k2
      by_cases hk : k2 = k
      · subst hk
        refine ⟨fun _ => ?_, fun fid2 hfid2 => ?_⟩
        · simp [hout]
        · simp at hfid2
      · refine ⟨fun hpend => ?_, fun fid2 hfid2 => ?_⟩
        · simp only [if_neg hk] at hpend ⊢
          exact (h k2).1 hpend
        · simp only [if_neg hk] at hfid2 ⊢
          exact (h k2).2 fid2 hfid2
  · rw [if_neg hin]
    exact h

lemma dedupInv_run (es : List Event) : ∀ s : ClientState, DedupInv s →
    noClear es = true → DedupInv (run s es) := by
  induction es with
  | nil => intro s h _; exact h
  | cons e rest ih =>
    intro s h hnc
    simp only [noClear, List.all_cons, Bool.and_eq_true] at hnc
    obtain ⟨h1, h2⟩ := hnc
    have h2' : noClear rest = true := h2
    show DedupInv (run (stepE s e) rest)
    cases e with
    | request k => exact ih _ (dedupInv_requestStep s k h) h2'
    | settleF fid k o => exact ih _ (dedupInv_settleFull s fid k o h) h2'
    | clear => simp at h1
    | tick dt => exact ih _ h h2'

lemma dedupInv_len_le_one (s : ClientState) (h : DedupInv s) (k : String) :
    (s.outstanding k).length ≤ 1 := by
  cases hp : s.pending k with
  | none => simp [(h k).1 hp]
  | some fid => simp [(h k).2 fid hp]

/-! ## Demo states used to instantiate the stateful theorems -/

/-- A state with one request for key `"a"` in flight (promise id 0). -/
def pendingDemoState : ClientState :=
  { cache := fun _ => none,
    pending := fun k => if k = "a" then some 0 else none,
    outstanding := fun k => if k = "a" then [0] else [],
    nextId := 1, now := 0, calls := 1 }

/-- A state with a fresh cache entry for key `"a"`. -/
def freshDemoState : ClientState :=
  { cache := fun k => if k = "a" then some (7, 0) else none,
    pending := fun _ => none,
    outstanding := fun _ => [],
    nextId := 0, now := 0, calls := 1 }

/-! ## Claims -/

lemma finalParams_single_q (q : String) (hq : q ≠ "") :
    finalParams [("q", PVal.str q)] = some (keywordParamsC q) := by
  unfold finalParams extractQ lookupP
  simp [hq]

/-- C1, counterexample.  The claim says that when explicit parameters and a
raw free-text query are both present the explicit parameters win and the
free text is ignored, and that the explicit branch applies the default
`limit: 20`.  On the input `{brand: "Samsung", q: "durable"}` the code does
the opposite: the free text wins, the explicit `brand` is dropped, and the
output is the rule-3 result; and on the explicit-only input
`{brand: "Samsung"}` the params are passed through verbatim with no
`limit` added (the claim expects `{brand: "Samsung", limit: 20}`). -/
theorem c1_counterexample :
    finalParams [("brand", PVal.str "Samsung"), ("q", PVal.str "durable")]
      = some [("limit", PVal.num 20), ("sort_by", PVal.str "note_id"),
              ("sort_order", PVal.str "DESC")]
    ∧ lookupP ((finalParams [("brand", PVal.str "Samsung"), ("q", PVal.str "durable")]).getD []) "brand" = none
    ∧ finalParams [("brand", PVal.str "Samsung")] = some [("brand", PVal.str "Samsung")] := by
  decide

/-- C1, amended: precedence is inverted relative to the claim.  If the
URL parameters carry a truthy free-text `q`, the canonical query is built
from the free text by the keyword rules and every explicit parameter is
ignored; explicit parameters are used only when no truthy `q` is present,
and are then returned verbatim — no normalization and no default
`limit: 20`. -/
theorem c1_amended (ps ps2 : List (String × PVal)) (s : String)
    (h1 : extractQ ps = some s) (h2 : s ≠ "")
    (h3 : qTruthy ps2 = false) (h4 : ps2 ≠ []) :
    finalParams ps = some (keywordParamsC s) ∧ finalParams ps2 = some ps2 := by
  constructor
  · unfold finalParams
    rw [h1]
    simp [h2]
  · unfold finalParams
    unfold qTruthy at h3
    cases hq : extractQ ps2 with
    | none =>
      cases ps2 with
      | nil => exact absurd rfl h4
      | cons a l => rfl
    | some s2 =>
      rw [hq] at h3
      simp only [Bool.not_eq_false', beq_iff_eq] at h3
      subst h3
      cases ps2 with
      | nil => simp [extractQ, lookupP] at hq
      | cons a l => rfl

/-- C1, witness for `c1_amended`. -/
theorem c1_witness :
    extractQ [("brand", PVal.str "Samsung"), ("q", PVal.str "durable")] = some "durable"
    ∧ "durable" ≠ ""
    ∧ qTruthy [("brand", PVal.str "Samsung")] = false
    ∧ [("brand", PVal.str "Samsung")] ≠ ([] : List (String × PVal))
    ∧ finalParams [("brand", PVal.str "Samsung"), ("q", PVal.str "durable")]
        = some (keywordParamsC "durable")
    ∧ finalParams [("brand", PVal.str "Samsung")] = some [("brand", PVal.str "Samsung")] :=
  ⟨by decide, by decide, by decide, by decide,
    (c1_amended [("brand", PVal.str "Samsung"), ("q", PVal.str "durable")]
      [("brand", PVal.str "Samsung")] "durable" (by decide) (by decide) (by decide) (by decide)).1,
    (c1_amended [("brand", PVal.str "Samsung"), ("q", PVal.str "durable")]
      [("brand", PVal.str "Samsung")] "durable" (by decide) (by decide) (by decide) (by decide)).2⟩

/-- C2, counterexample.  In the `finalParams` revision the brand branch
does not exist: the raw query `"samsung"` (a brand token matching none of
rules 1–6) is passed through as a free-text `q` term and no `brand` filter
is set, contradicting the claim. -/
theorem c2_counterexample :
    finalParams [("q", PVal.str "samsung")]
      = some [("limit", PVal.num 20), ("q", PVal.str "samsung")]
    ∧ lookupP ((finalParams [("q", PVal.str "samsung")]).getD []) "brand" = none := by
  decide

lemma keywordParams_noBrand (q2 : String)
    (h26 : matchesRule1to6 (jsToLower q2) = true) :
    lookupP (keywordParamsB q2) "brand" = none
    ∧ lookupP (keywordParamsC q2) "brand" = none := by
  unfold keywordParamsB keywordParamsC
  cases g1 : ruleRepairable (jsToLower q2) with
  | true => simp [g1, lookupP]
  | false =>
  cases g2 : ruleReliable (jsToLower q2) with
  | true => simp [g1, g2, lookupP]
  | false =>
  cases g3 : ruleDurable (jsToLower q2) with
  | true => simp [g1, g2, g3, lookupP]
  | false =>
  cases g4 : ruleExcellent (jsToLower q2) with
  | true => simp [g1, g2, g3, g4, lookupP]
  | false =>
  cases g5 : ruleBudget (jsToLower q2) with
  | true => simp [g1, g2, g3, g4, g5, lookupP]
  | false =>
  cases g6 : ruleYear (jsToLower q2) with
  | true =>
    cases hfy : findYear q2 with
    | some y => simp [g1, g2, g3, g4, g5, g6, hfy, lookupP]
    | none => simp [g1, g2, g3, g4, g5, g6, hfy, lookupP]
  | false =>
    exfalso
    simp [matchesRule1to6, matchesRule1to5, g1, g2, g3, g4, g5, g6] at h26

/-- C2, amended.  Only the `searchParams` revision implements the brand
rule: a query containing a brand token and matching none of rules 1–6 gets
`{brand: rawText, limit: 20}` there, while the `finalParams` revision
passes the same query through as a free-text `q` term.  The priority half
of the claim holds in both revisions for every higher-priority rule: any
query matching one of rules 1–6 resolves by the highest-priority matching
rule and never by the brand rule — its canonical query carries no `brand`
binding, and for each rule the emitted fields are exactly that rule's
(e.g. `"Samsung plus réparable"` resolves via rule 1). -/
theorem c2_amended (q q2 : String) (hq : q ≠ "") (hq2 : q2 ≠ "")
    (hb : ruleBrand (jsToLower q) = true)
    (h16 : matchesRule1to6 (jsToLower q) = false)
    (h26 : matchesRule1to6 (jsToLower q2) = true) :
    searchParamsB q = some [("brand", PVal.str q), ("limit", PVal.num 20)]
    ∧ finalParams [("q", PVal.str q)] = some [("limit", PVal.num 20), ("q", PVal.str q)]
    ∧ searchParamsB q2 = some (keywordParamsB q2)
    ∧ finalParams [("q", PVal.str q2)] = some (keywordParamsC q2)
    ∧ lookupP (keywordParamsB q2) "brand" = none
    ∧ lookupP (keywordParamsC q2) "brand" = none
    ∧ (ruleRepairable (jsToLower q2) = true →
        keywordParamsB q2
          = [("sort_by", PVal.str "note_reparabilite"), ("sort_order", PVal.str "DESC"),
             ("min_repairability", PVal.num 7), ("limit", PVal.num 20)]
        ∧ keywordParamsC q2
          = [("limit", PVal.num 20), ("sort_by", PVal.str "note_reparabilite"),
             ("sort_order", PVal.str "DESC"), ("min_repairability", PVal.num 7)])
    ∧ (ruleRepairable (jsToLower q2) = false → ruleReliable (jsToLower q2) = true →
        keywordParamsB q2
          = [("sort_by", PVal.str "note_fiabilite"), ("sort_order", PVal.str "DESC"),
             ("min_reliability", PVal.num 6), ("limit", PVal.num 20)]
        ∧ keywordParamsC q2
          = [("limit", PVal.num 20), ("sort_by", PVal.str "note_fiabilite"),
             ("sort_order", PVal.str "DESC"), ("min_reliability", PVal.num 6)])
    ∧ (ruleRepairable (jsToLower q2) = false → ruleReliable (jsToLower q2) = false →
        ruleDurable (jsToLower q2) = true →
        keywordParamsB q2
          = [("sort_by", PVal.str "note_id"), ("sort_order", PVal.str "DESC"),
             ("limit", PVal.num 20)]
        ∧ keywordParamsC q2
          = [("limit", PVal.num 20), ("sort_by", PVal.str "note_id"),
             ("sort_order", PVal.str "DESC")])
    ∧ (ruleRepairable (jsToLower q2) = false → ruleReliable (jsToLower q2) = false →
        ruleDurable (jsToLower q2) = false → ruleExcellent (jsToLower q2) = true →
        keywordParamsB q2
          = [("min_repairability", PVal.num 8), ("min_reliability", PVal.num 7),
             ("sort_by", PVal.str "note_id"), ("sort_order", PVal.str "DESC"),
             ("limit", PVal.num 15)]
        ∧ keywordParamsC q2
          = [("limit", PVal.num 15), ("min_repairability", PVal.num 8),
             ("min_reliability", PVal.num 7), ("sort_by", PVal.str "note_id"),
             ("sort_order", PVal.str "DESC")])
    ∧ (ruleRepairable (jsToLower q2) = false → ruleReliable (jsToLower q2) = false →
        ruleDurable (jsToLower q2) = false → ruleExcellent (jsToLower q2) = false →
        ruleBudget (jsToLower q2) = true →
        keywordParamsB q2
          = [("max_repairability", PVal.num 6), ("max_reliability", PVal.num 6),
             ("sort_by", PVal.str "note_id"), ("sort_order", PVal.str "DESC"),
             ("limit", PVal.num 15)]
        ∧ keywordParamsC q2
          = [("limit", PVal.num 15), ("max_repairability", PVal.num 6),
             ("max_reliability", PVal.num 6), ("sort_by", PVal.str "note_id"),
             ("sort_order", PVal.str "DESC")])
    ∧ (ruleRepairable (jsToLower q2) = false → ruleReliable (jsToLower q2) = false →
        ruleDurable (jsToLower q2) = false → ruleExcellent (jsToLower q2) = false →
        ruleBudget (jsToLower q2) = false → ruleYear (jsToLower q2) = true →
        keywordParamsB q2 = yearParamsB (findYear q2)
        ∧ keywordParamsC q2 = yearParamsC (findYear q2)) := by
  simp only [matchesRule1to6, matchesRule1to5, Bool.or_eq_false_iff] at h16
  obtain ⟨⟨⟨⟨⟨g1, g2⟩, g3⟩, g4⟩, g5⟩, g6⟩ := h16
  have hnb := keywordParams_noBrand q2 h26
  refine ⟨?_, ?_, ?_, finalParams_single_q q2 hq2, hnb.1, hnb.2,
    ?_, ?_, ?_, ?_, ?_, ?_⟩
  · unfold searchParamsB keywordParamsB
    rw [if_neg hq]
    simp [g1, g2, g3, g4, g5, g6, hb]
  · rw [finalParams_single_q q hq]
    unfold keywordParamsC
    simp [g1, g2, g3, g4, g5, g6]
  · unfold searchParamsB
    rw [if_neg hq2]
  · intro f1
    constructor
    · unfold keywordParamsB; simp [f1]
    · unfold keywordParamsC; simp [f1]
  · intro f1 f2
    constructor
    · unfold keywordParamsB; simp [f1, f2]
    · unfold keywordParamsC; simp [f1, f2]
  · intro f1 f2 f3
    constructor
    · unfold keywordParamsB; simp [f1, f2, f3]
    · unfold keywordParamsC; simp [f1, f2, f3]
  · intro f1 f2 f3 f4
    constructor
    · unfold keywordParamsB; simp [f1, f2, f3, f4]
    · unfold keywordParamsC; simp [f1, f2, f3, f4]
  · intro f1 f2 f3 f4 f5
    constructor
    · unfold keywordParamsB; simp [f1, f2, f3, f4, f5]
    · unfold keywordParamsC; simp [f1, f2, f3, f4, f5]
  · intro f1 f2 f3 f4 f5 f6
    constructor
    · unfold keywordParamsB
      cases hfy : findYear q2 with
      | some y => simp [f1, f2, f3, f4, f5, f6, hfy, yearParamsB]
      | none => simp [f1, f2, f3, f4, f5, f6, hfy, yearParamsB]
    · unfold keywordParamsC
      cases hfy : findYear q2 with
      | some y => simp [f1, f2, f3, f4, f5, f6, hfy, yearParamsC]
      | none => simp [f1, f2, f3, f4, f5, f6, hfy, yearParamsC]

/-- C2, witness for `c2_amended` at `q = "samsung"`,
`q2 = "Samsung plus réparable"` (a query matching both rule 1 and the
brand rule, resolved via rule 1). -/
theorem c2_witness :
    ("samsung" : String) ≠ ""
    ∧ ("Samsung plus réparable" : String) ≠ ""
    ∧ ruleBrand (jsToLower "samsung") = true
    ∧ matchesRule1to6 (jsToLower "samsung") = false
    ∧ matchesRule1to6 (jsToLower "Samsung plus réparable") = true
    ∧ searchParamsB "samsung" = some [("brand", PVal.str "samsung"), ("limit", PVal.num 20)]
    ∧ finalParams [("q", PVal.str "samsung")]
        = some [("limit", PVal.num 20), ("q", PVal.str "samsung")]
    ∧ lookupP (keywordParamsB "Samsung plus réparable") "brand" = none
    ∧ lookupP (keywordParamsC "Samsung plus réparable") "brand" = none
    ∧ (ruleRepairable (jsToLower "Samsung plus réparable") = true →
        keywordParamsB "Samsung plus réparable"
          = [("sort_by", PVal.str "note_reparabilite"), ("sort_order", PVal.str "DESC"),
             ("min_repairability", PVal.num 7), ("limit", PVal.num 20)]
        ∧ keywordParamsC "Samsung plus réparable"
          = [("limit", PVal.num 20), ("sort_by", PVal.str "note_reparabilite"),
             ("sort_order", PVal.str "DESC"), ("min_repairability", PVal.num 7)]) := by
  have h := c2_amended "samsung" "Samsung plus réparable" (by decide) (by decide)
    (by decide) (by decide) (by decide)
  exact ⟨by decide, by decide, by decide, by decide, by decide,
    h.1, h.2.1, h.2.2.2.2.1, h.2.2.2.2.2.1, h.2.2.2.2.2.2.1⟩

/-- C3.  The cache key actually used by the caching layer is the raw URL
string that `fetchMachines` builds, whose query parameters appear in
`Object.entries` insertion order — `getCacheKey`, which implements the
lexicographically sorted key the spec describes, is defined in `api.ts`
but never called.  At the failing input (the same logical request with
`{brand, limit}` supplied in the two insertion orders) the layer therefore
produces two distinct cache keys, while the repo's own (dead) `getCacheKey`
would have produced a single one. -/
theorem c3_divergence :
    fetchMachinesUrl "http://localhost:3000"
        [("brand", some (PVal.str "Samsung")), ("limit", some (PVal.num 20))]
      ≠ fetchMachinesUrl "http://localhost:3000"
        [("limit", some (PVal.num 20)), ("brand", some (PVal.str "Samsung"))]
    ∧ getCacheKey "/v1/machines" [("brand", PVal.str "Samsung"), ("limit", PVal.num 20)]
      = getCacheKey "/v1/machines" [("limit", PVal.num 20), ("brand", PVal.str "Samsung")] := by
  decide

/-- C4.  `getBestAffiliateLink` resolves by the claimed fixed precedence:
a truthy direct Amazon product URL is returned unmodified with
`isDirect = true`; otherwise a truthy ASIN yields exactly
`https://{host}/dp/{asin}?tag={tag}` with `isDirect = true`; otherwise the
search fallback `https://{host}/s?k={encodeURIComponent(keywords)}&tag={tag}`
with `isDirect = false` — bit-exact on the spec's examples, in particular
brand `LG`, model `F4V510WSE`, locale `fr`, default tag gives
`https://www.amazon.fr/s?k=LG%20F4V510WSE&tag=lebrugere-21`. -/
theorem getBestAffiliateLink_precedence (brand : String)
    (model asin apu : Option String) (tag : String) (loc : AmazonLocale) :
    (jsTruthyS apu = true →
      getBestAffiliateLink brand model asin apu tag loc
        = { url := apu.getD "", linkType := "product", isDirect := true })
    ∧ (jsTruthyS apu = false → jsTruthyS asin = true →
      getBestAffiliateLink brand model asin apu tag loc
        = { url := "https://" ++ marketplaceHost loc ++ "/dp/" ++ asin.getD "" ++ "?tag=" ++ tag,
            linkType := "product", isDirect := true })
    ∧ (jsTruthyS apu = false → jsTruthyS asin = false →
      getBestAffiliateLink brand model asin apu tag loc
        = { url := "https://" ++ marketplaceHost loc ++ "/s?k="
                ++ encodeURIComponent (jsTrim (brand ++ " " ++ model.getD "")) ++ "&tag=" ++ tag,
            linkType := "search", isDirect := false })
    ∧ getBestAffiliateLink "LG" (some "F4V510WSE") none none "lebrugere-21" .fr
        = { url := "https://www.amazon.fr/s?k=LG%20F4V510WSE&tag=lebrugere-21",
            linkType := "search", isDirect := false }
    ∧ getBestAffiliateLink "X" none (some "B000X") none "lebrugere-21" .fr
        = { url := "https://www.amazon.fr/dp/B000X?tag=lebrugere-21",
            linkType := "product", isDirect := true }
    ∧ getBestAffiliateLink "X" none (some "B000X") (some "https://www.amazon.fr/dp/B000X")
          "lebrugere-21" .fr
        = { url := "https://www.amazon.fr/dp/B000X", linkType := "product", isDirect := true } := by
  refine ⟨?_, ?_, ?_, by decide, by decide, by decide⟩
  · intro h1
    simp [getBestAffiliateLink, h1]
  · intro h1 h2
    simp [getBestAffiliateLink, buildAmazonAffiliateProductUrl, h1, h2]
  · intro h1 h2
    simp [getBestAffiliateLink, buildAmazonAffiliateSearchUrl, h1, h2]

/-- C4, witness for `getBestAffiliateLink_precedence` (direct-URL input:
the first antecedent holds, the other two are discharged vacuously). -/
theorem getBestAffiliateLink_witness :
    (jsTruthyS (some "https://www.amazon.fr/dp/B000X") = true →
      getBestAffiliateLink "LG" (some "F4V510WSE") (some "B000X")
          (some "https://www.amazon.fr/dp/B000X") "lebrugere-21" .fr
        = { url := (some "https://www.amazon.fr/dp/B000X").getD "",
            linkType := "product", isDirect := true })
    ∧ (jsTruthyS (some "https://www.amazon.fr/dp/B000X") = false →
        jsTruthyS (some "B000X") = true →
      getBestAffiliateLink "LG" (some "F4V510WSE") (some "B000X")
          (some "https://www.amazon.fr/dp/B000X") "lebrugere-21" .fr
        = { url := "https://" ++ marketplaceHost .fr ++ "/dp/"
              ++ (some "B000X").getD "" ++ "?tag=" ++ "lebrugere-21",
            linkType := "product", isDirect := true })
    ∧ (jsTruthyS (some "https://www.amazon.fr/dp/B000X") = false →
        jsTruthyS (some "B000X") = false →
      getBestAffiliateLink "LG" (some "F4V510WSE") (some "B000X")
          (some "https://www.amazon.fr/dp/B000X") "lebrugere-21" .fr
        = { url := "https://" ++ marketplaceHost .fr ++ "/s?k="
              ++ encodeURIComponent (jsTrim ("LG" ++ " " ++ (some "F4V510WSE").getD ""))
              ++ "&tag=" ++ "lebrugere-21",
            linkType := "search", isDirect := false })
    ∧ getBestAffiliateLink "LG" (some "F4V510WSE") none none "lebrugere-21" .fr
        = { url := "https://www.amazon.fr/s?k=LG%20F4V510WSE&tag=lebrugere-21",
            linkType := "search", isDirect := false }
    ∧ getBestAffiliateLink "X" none (some "B000X") none "lebrugere-21" .fr
        = { url := "https://www.amazon.fr/dp/B000X?tag=lebrugere-21",
            linkType := "product", isDirect := true }
    ∧ getBestAffiliateLink "X" none (some "B000X") (some "https://www.amazon.fr/dp/B000X")
          "lebrugere-21" .fr
        = { url := "https://www.amazon.fr/dp/B000X", linkType := "product", isDirect := true } :=
  getBestAffiliateLink_precedence "LG" (some "F4V510WSE") (some "B000X")
    (some "https://www.amazon.fr/dp/B000X") "lebrugere-21" .fr

/-- C5.  Issuing the same request twice with the first response arriving
in between and less than `CACHE_DURATION` elapsing issues exactly one
network call — the second invocation is served from the cache (`serveFresh`
returns the stored payload).  The same pair of requests with an intervening
`clearCache()` issues two network calls. -/
theorem cache_roundtrip (k : String) (d : RespData) (dt : Nat)
    (h : dt < CACHE_DURATION) :
    (run initState
        [Event.request k, Event.settleF 0 k (FetchOutcome.success d),
         Event.tick dt, Event.request k]).calls = 1
    ∧ serveFresh (run initState
        [Event.request k, Event.settleF 0 k (FetchOutcome.success d),
         Event.tick dt]) k = some d
    ∧ (run initState
        [Event.request k, Event.settleF 0 k (FetchOutcome.success d),
         Event.clear, Event.request k]).calls = 2 := by
  refine ⟨?_, ?_, ?_⟩
  · simp [run, stepE, requestStep, requestMiss, settleFull, serveFresh,
      clearStep, initState, h]
  · simp [run, stepE, requestStep, requestMiss, settleFull, serveFresh,
      clearStep, initState, h]
  · simp [run, stepE, requestStep, requestMiss, settleFull, serveFresh,
      clearStep, initState, h]

/-- C5, witness for `cache_roundtrip` at `k = "a"`, `d = 5`, `dt = 0`. -/
theorem cache_roundtrip_witness :
    0 < CACHE_DURATION
    ∧ ((run initState
          [Event.request "a", Event.settleF 0 "a" (FetchOutcome.success 5),
           Event.tick 0, Event.request "a"]).calls = 1
      ∧ serveFresh (run initState
          [Event.request "a", Event.settleF 0 "a" (FetchOutcome.success 5),
           Event.tick 0]) "a" = some 5
      ∧ (run initState
          [Event.request "a", Event.settleF 0 "a" (FetchOutcome.success 5),
           Event.clear, Event.request "a"]).calls = 2) :=
  ⟨by decide, cache_roundtrip "a" 5 0 (by decide)⟩

/-- C6, counterexample.  The formalized claim — in every event trace, at
most one network call is outstanding per distinct cache key — is false:
in the trace `request k; clearCache(); request k`, `clearCache` drops the
in-flight tracker while the first fetch is still on the wire, so the
second request issues a second fetch and two network calls for key `"k"`
are outstanding simultaneously. -/
theorem c6_counterexample :
    ¬ (∀ (es : List Event) (k : String),
        ((run initState es).outstanding k).length ≤ 1) := by
  intro hcl
  exact absurd (hcl [Event.request "k", Event.clear, Event.request "k"] "k") (by decide)

/-- C6, amended: in every trace that never invokes `clearCache`, at most
one network call is outstanding per distinct cache key at any time; and
whenever `pendingRequests` holds an entry for a key, a further
`cachedFetch` for that key returns the tracked promise and changes nothing
(in particular it issues no second fetch). -/
theorem c6_amended (es : List Event) (k : String) (s : ClientState) (k2 : String)
    (hnc : noClear es = true) (hp : (s.pending k2).isSome = true) :
    ((run initState es).outstanding k).length ≤ 1 ∧ requestStep s k2 = s := by
  constructor
  · exact dedupInv_len_le_one _ (dedupInv_run es initState dedupInv_init hnc) k
  · unfold requestStep
    split
    · rfl
    · unfold requestMiss
      cases hps : s.pending k2 with
      | none => rw [hps] at hp; simp at hp
      | some fid => rfl

/-- C6, witness for `c6_amended`. -/
theorem c6_witness :
    noClear [Event.request "a", Event.request "a"] = true
    ∧ (pendingDemoState.pending "a").isSome = true
    ∧ ((run initState [Event.request "a", Event.request "a"]).outstanding "a").length ≤ 1
    ∧ requestStep pendingDemoState "a" = pendingDemoState :=
  ⟨by decide, by decide,
    (c6_amended [Event.request "a", Event.request "a"] "a" pendingDemoState "a"
      (by decide) (by decide)).1,
    (c6_amended [Event.request "a", Event.request "a"] "a" pendingDemoState "a"
      (by decide) (by decide)).2⟩

/-- C7.  When a fetch settles with a non-success HTTP status or a network
failure, the promise rejects with an error (`Error("API error: ...")` for
an HTTP status, the transport error otherwise) and the cache is left
completely unchanged — the failed response is never stored.  Moreover the
cache-hit path only ever returns an entry that is fresh by policy, so no
stale entry is returned in place of the error. -/
theorem failedFetch_leavesCacheUnchanged (s : ClientState) (fid : Nat)
    (k k2 : String) (o : FetchOutcome) (ho : o.isFail = true) :
    (settleFull s fid k o).1.cache = s.cache
    ∧ (∃ e, (settleFull s fid k o).2 = Except.error e)
    ∧ ((serveFresh s k2).isSome = true → freshAt s k2 = true) := by
  refine ⟨?_, ?_, ?_⟩
  · unfold settleFull
    cases o with
    | success d => exact Bool.noConfusion ho
    | httpFail status => split <;> rfl
    | netFail msg => split <;> rfl
  · unfold settleFull
    cases o with
    | success d => exact Bool.noConfusion ho
    | httpFail status =>
      split
      · exact ⟨_, rfl⟩
      · exact ⟨_, rfl⟩
    | netFail msg =>
      split
      · exact ⟨_, rfl⟩
      · exact ⟨_, rfl⟩
  · intro hs
    cases hc : s.cache k2 with
    | none => simp [serveFresh, hc] at hs
    | some p =>
      obtain ⟨d, ts⟩ := p
      by_cases hfresh : s.now - ts < CACHE_DURATION
      · simp [freshAt, hc, hfresh]
      · simp [serveFresh, hc, hfresh] at hs

/-- C7, witness for `failedFetch_leavesCacheUnchanged` at a state holding
one fresh cache entry and an HTTP 500 settlement. -/
theorem failedFetch_witness :
    (FetchOutcome.httpFail 500).isFail = true
    ∧ (settleFull freshDemoState 0 "a" (FetchOutcome.httpFail 500)).1.cache
        = freshDemoState.cache
    ∧ (∃ e, (settleFull freshDemoState 0 "a" (FetchOutcome.httpFail 500)).2
        = Except.error e)
    ∧ ((serveFresh freshDemoState "a").isSome = true → freshAt freshDemoState "a" = true) :=
  ⟨by decide,
    (failedFetch_leavesCacheUnchanged freshDemoState 0 "a" "a"
      (FetchOutcome.httpFail 500) (by decide)).1,
    (failedFetch_leavesCacheUnchanged freshDemoState 0 "a" "a"
      (FetchOutcome.httpFail 500) (by decide)).2.1,
    (failedFetch_leavesCacheUnchanged freshDemoState 0 "a" "a"
      (FetchOutcome.httpFail 500) (by decide)).2.2⟩

/-- C8, counterexample.  On the input `{q: ""}` neither the raw free-text
query (empty string) nor any explicit parameter yields a filter, yet
`finalParams` is not null — the object is passed through verbatim and a
request with `q=""` is dispatched to the catalog, contradicting "no
request is ever dispatched". -/
theorem c8_counterexample :
    finalParams [("q", PVal.str "")] = some [("q", PVal.str "")]
    ∧ machineResultsDispatches [("q", PVal.str "")] = true := by
  decide

/-- C8, amended: the code treats a query as empty exactly when the URL
parameter object has no keys at all.  In that case (and only then)
interpretation yields null, no request is dispatched, and the component
renders nothing instead of surfacing an error; a present-but-empty field
such as `q: ""` is still dispatched verbatim. -/
theorem c8_amended (ps : List (String × PVal)) :
    (finalParams ps = none ↔ ps = [])
    ∧ (machineResultsDispatches ps = false ↔ ps = [])
    ∧ (machineResultsRendersNull ps = true ↔ ps = []) := by
  have key : finalParams ps = none ↔ ps = [] := by
    constructor
    · intro h
      cases hq : extractQ ps with
      | none =>
        cases ps with
        | nil => rfl
        | cons a l => simp [finalParams, hq] at h
      | some s =>
        by_cases hs : s = ""
        · cases ps with
          | nil => rfl
          | cons a l =>
            subst hs
            simp [finalParams, hq] at h
        · simp [finalParams, hq, hs] at h
    · intro h
      subst h
      rfl
  refine ⟨key, ?_, ?_⟩
  · unfold machineResultsDispatches
    cases hfp : finalParams ps with
    | none => simpa using key.mp hfp
    | some v =>
      simp only [Option.isSome_some]
      constructor
      · intro h; simp at h
      · intro h
        rw [key.mpr h] at hfp
        simp at hfp
  · unfold machineResultsRendersNull
    cases hfp : finalParams ps with
    | none => simpa using key.mp hfp
    | some v =>
      simp only [Option.isNone_some]
      constructor
      · intro h; simp at h
      · intro h
        rw [key.mpr h] at hfp
        simp at hfp

/-- C9, counterexample.  The year branch is guarded by
`queryLower.includes("2025") || queryLower.includes("2024")`, not by the
regex, so the property does not hold for every `20\d{2}` token: the raw
query `"2026"` contains a `\b20\d{2}\b` token (`findYear` returns 2026)
and matches none of rules 1–5, yet both interpreter revisions pass it
through as a free-text `q` term with no `year` filter and no date sort,
where the claim requires
`{year: 2026, sort_by: "date_calcul", sort_order: "DESC", limit: 20}`. -/
theorem c9_counterexample :
    findYear "2026" = some 2026
    ∧ matchesRule1to5 (jsToLower "2026") = false
    ∧ finalParams [("q", PVal.str "2026")]
        = some [("limit", PVal.num 20), ("q", PVal.str "2026")]
    ∧ lookupP ((finalParams [("q", PVal.str "2026")]).getD []) "year" = none
    ∧ searchParamsB "2026" = some [("q", PVal.str "2026"), ("limit", PVal.num 20)] := by
  decide

/-- C9, amended: the year rule fires only for queries containing the
literal substrings `"2025"` or `"2024"`.  For every such query matching
none of rules 1–5, when the `\b20\d{2}\b` regex finds a token `y` the
interpreter emits the year filter `y` with the evaluation-date sort:
`{limit: 20, year: y, sort_by: "date_calcul", sort_order: "DESC"}` in the
`finalParams` revision, and the same fields with `limit` last in the
`searchParams` revision. -/
theorem c9_amended (q : String) (y : Int) (hq : q ≠ "")
    (h15 : matchesRule1to5 (jsToLower q) = false)
    (h6 : ruleYear (jsToLower q) = true)
    (hy : findYear q = some y) :
    finalParams [("q", PVal.str q)]
      = some [("limit", PVal.num 20), ("year", PVal.num y),
              ("sort_by", PVal.str "date_calcul"), ("sort_order", PVal.str "DESC")]
    ∧ searchParamsB q
      = some [("year", PVal.num y), ("sort_by", PVal.str "date_calcul"),
              ("sort_order", PVal.str "DESC"), ("limit", PVal.num 20)] := by
  simp only [matchesRule1to5, Bool.or_eq_false_iff] at h15
  obtain ⟨⟨⟨⟨g1, g2⟩, g3⟩, g4⟩, g5⟩ := h15
  constructor
  · rw [finalParams_single_q q hq]
    unfold keywordParamsC
    simp [g1, g2, g3, g4, g5, h6, hy]
  · unfold searchParamsB keywordParamsB
    rw [if_neg hq]
    simp [g1, g2, g3, g4, g5, h6, hy]

/-- C9, witness for `c9_amended` at `q = "2025"` (the spec's own example:
`{year: 2025, sort_by: "date_calcul", sort_order: "DESC", limit: 20}`). -/
theorem c9_witness :
    ("2025" : String) ≠ ""
    ∧ matchesRule1to5 (jsToLower "2025") = false
    ∧ ruleYear (jsToLower "2025") = true
    ∧ findYear "2025" = some 2025
    ∧ finalParams [("q", PVal.str "2025")]
        = some [("limit", PVal.num 20), ("year", PVal.num 2025),
                ("sort_by", PVal.str "date_calcul"), ("sort_order", PVal.str "DESC")]
    ∧ searchParamsB "2025"
        = some [("year", PVal.num 2025), ("sort_by", PVal.str "date_calcul"),
                ("sort_order", PVal.str "DESC"), ("limit", PVal.num 20)] := by
  have h := c9_amended "2025" 2025 (by decide) (by decide) (by decide) (by decide)
  exact ⟨by decide, by decide, by decide, by decide, h.1, h.2⟩

/-- C10.  `clearCache()` during an in-flight request drops the in-flight
tracker and all cache entries (`cache` and `pending` are empty for the
key afterwards, while the fetch itself is still outstanding), but when
that fetch later resolves, its `.then` handler stores the response in the
cache unconditionally — the cache is repopulated with the response of a
request issued before the clear. -/
theorem clearCache_doesNotBlockInflightInsert (k : String) (d : RespData) :
    (run initState [Event.request k, Event.clear]).cache k = none
    ∧ (run initState [Event.request k, Event.clear]).pending k = none
    ∧ (run initState [Event.request k, Event.clear]).outstanding k = [0]
    ∧ (run initState
        [Event.request k, Event.clear,
         Event.settleF 0 k (FetchOutcome.success d)]).cache k = some (d, 0) := by
  refine ⟨rfl, rfl, ?_, ?_⟩
  · simp [run, stepE, requestStep, requestMiss, serveFresh, clearStep, initState]
  · simp [run, stepE, requestStep, requestMiss, serveFresh, clearStep,
      settleFull, initState]
